import Mathlib

/-!
Shallow embedding of `src/geocode.py`, a single-pass batch geocoder:
it reads CSV rows (columns `Id`, `Address`), queries a remote geocoding
service once per row with a 1-second delay between consecutive requests,
accumulates successful lookups in a Python dict, and serializes the dict
to a JSON file at the end, printing a summary.

Python floats are modelled as rationals (`Rat`); the network call is an
oracle `Net : String → NetResult`; the Python dict is an association list
with dict-assignment semantics (update in place, else append); effects
(remote lookups, sleeps, the final file write) are recorded in an event
trace; exceptions are `Except`.
-/

/-- A parsed entry of the Nominatim JSON response array, with its `lat` and
`lon` string fields already converted to numbers (`float(...)` in the code). -/
structure Entry where
  lat : Rat
  lon : Rat
deriving DecidableEq, Repr

/-- The coordinate dict `{"lat": ..., "lng": ...}` built by `geocode_address`. -/
structure Coordinate where
  lat : Rat
  lng : Rat
deriving DecidableEq, Repr

/-- Outcome of the HTTP request inside `geocode_address`: either a JSON array
of entries, or an exception (network failure, non-success status, malformed
body). -/
inductive NetResult where
  | ok (entries : List Entry)
  | err (msg : String)
deriving DecidableEq, Repr

/-- The network oracle: what `urlopen` + `json.loads` yields for each address. -/
abbrev Net := String → NetResult

/-- Embedding of `geocode_address`: on a successful response, return the
coordinate parsed from the first entry if the array is non-empty, else `None`;
an exception from the request propagates. -/
def geocode_address (net : Net) (address : String) : Except String (Option Coordinate) :=
  match net address with
  | NetResult.err m => Except.error m
  | NetResult.ok [] => Except.ok none
  | NetResult.ok (e :: _) => Except.ok (some { lat := e.lat, lng := e.lon })

/-- A Python dict keyed by strings, as an association list in insertion order. -/
def dictGet? {α : Type} (d : List (String × α)) (k : String) : Option α :=
  (d.find? (fun p => p.1 == k)).map Prod.snd

/-- Whether a key is present in the dict. -/
def hasKey {α : Type} (d : List (String × α)) (k : String) : Bool :=
  d.any (fun p => p.1 == k)

/-- The accumulator dict `coords`, mapping library ids to coordinates. -/
abbrev Dict := List (String × Coordinate)

/-- Python dict assignment `d[k] = v`: update the existing entry in place
(keeping its position) if `k` is present, else append a new entry. -/
def dictInsert (d : Dict) (k : String) (v : Coordinate) : Dict :=
  if hasKey d k then d.map (fun p => if p.1 == k then (k, v) else p)
  else d ++ [(k, v)]

/-- One row as produced by `csv.DictReader`: a dict from column names to cells. -/
abbrev LibRow := List (String × String)

/-- The errors `main` can raise per record: a `KeyError` from `lib["Id"]` /
`lib["Address"]` when the column is absent, or a propagated network error. -/
inductive RunError where
  | keyError (k : String)
  | netError (m : String)
deriving DecidableEq, Repr

/-- Observable effects of a run: a remote lookup for an address, the
`time.sleep(1)` rate-limit delay, and the final write of the output file. -/
inductive Event where
  | lookup (address : String)
  | delay
  | write (coords : Dict)
deriving DecidableEq, Repr

/-- The id of a row, `lib["Id"]` (defaulting only for statement convenience). -/
def libId (lib : LibRow) : String := (dictGet? lib "Id").getD ""

/-- The address of a row, `lib["Address"]`. -/
def libAddress (lib : LibRow) : String := (dictGet? lib "Address").getD ""

/-- The `for i, lib in enumerate(libraries)` loop of `main`: for each row read
`Id` and `Address` (KeyError if absent), call `geocode_address` (errors
propagate), insert into `coords` on success, and sleep iff `i < n - 1`.
Returns the event trace together with the final dict or the first error. -/
def loop (net : Net) (n : Nat) : List LibRow → Nat → Dict → List Event × Except RunError Dict
  | [], _, coords => ([], Except.ok coords)
  | lib :: rest, i, coords =>
    match dictGet? lib "Id" with
    | none => ([], Except.error (RunError.keyError "Id"))
    | some lib_id =>
      match dictGet? lib "Address" with
      | none => ([], Except.error (RunError.keyError "Address"))
      | some address =>
        match geocode_address net address with
        | Except.error m => ([Event.lookup address], Except.error (RunError.netError m))
        | Except.ok result =>
          let coords' :=
            match result with
            | some c => dictInsert coords lib_id c
            | none => coords
          let r := loop net n rest (i + 1) coords'
          ((Event.lookup address :: (if i < n - 1 then [Event.delay] else [])) ++ r.1, r.2)

/-- What `main` reports at the end: the dict written to the output file, the
count in the `Wrote N coordinates` line, and the failure warning. -/
structure RunOutput where
  coords : Dict
  wroteCount : Nat
  failedCount : Nat
  warningPrinted : Bool
deriving DecidableEq, Repr

/-- The input file as `main` sees it: missing/unreadable, or a CSV with a
header row and data rows. -/
inductive FileSys where
  | missing
  | present (header : List String) (rows : List (List String))

/-- `csv.DictReader`: each data row becomes a dict from header names to cells
(rows are modelled as aligned with the header, which is how the input file is
specified; `csv.DictReader` pads or collects stragglers otherwise). -/
def dictReader (header : List String) (rows : List (List String)) : List LibRow :=
  rows.map (fun cells => header.zip cells)

/-- Top-level failures of `main`: the `open` of a missing input file, or an
error raised inside the loop. -/
inductive MainError where
  | ioError
  | runError (e : RunError)
deriving DecidableEq, Repr

/-- Embedding of `main`: read all rows up front, run the loop, and only on
success write the output file (a `write` event) and report the summary. -/
def mainRun (net : Net) (fs : FileSys) : List Event × Except MainError RunOutput :=
  match fs with
  | FileSys.missing => ([], Except.error MainError.ioError)
  | FileSys.present header rows =>
    let libraries := dictReader header rows
    let n := libraries.length
    let p := loop net n libraries 0 []
    match p.2 with
    | Except.error e => (p.1, Except.error (MainError.runError e))
    | Except.ok coords =>
      (p.1 ++ [Event.write coords],
       Except.ok { coords := coords
                   wroteCount := coords.length
                   failedCount := n - coords.length
                   warningPrinted := n - coords.length != 0 })

/-- Whether a row's lookup is a recoverable miss (empty result array). -/
def isMiss (net : Net) (lib : LibRow) : Bool :=
  match geocode_address net (libAddress lib) with
  | Except.ok none => true
  | _ => false

/-- The dict after processing the first `k` rows (the loop state at step `k`). -/
def coordsAfter (net : Net) (libs : List LibRow) (k : Nat) : Except RunError Dict :=
  (loop net libs.length (libs.take k) 0 []).2

deriving instance DecidableEq for Except

lemma hasKey_iff {α : Type} (d : List (String × α)) (k : String) :
    hasKey d k = true ↔ k ∈ d.map Prod.fst := by
  simp [hasKey, List.any_eq_true, List.mem_map]

lemma hasKey_false_iff {α : Type} (d : List (String × α)) (k : String) :
    hasKey d k = false ↔ k ∉ d.map Prod.fst := by
  rw [← hasKey_iff]
  cases hasKey d k <;> simp

lemma dictInsert_of_fresh (d : Dict) (k : String) (v : Coordinate)
    (h : hasKey d k = false) : dictInsert d k v = d ++ [(k, v)] := by
  simp [dictInsert, h]

lemma map_fst_dictInsert_of_hasKey (d : Dict) (k : String) (v : Coordinate)
    (h : hasKey d k = true) :
    (dictInsert d k v).map Prod.fst = d.map Prod.fst := by
  rw [dictInsert, if_pos h, List.map_map]
  apply List.map_congr_left
  intro p _
  by_cases hp : p.1 = k
  · simp [hp]
  · simp [hp]

lemma length_dictInsert_of_hasKey (d : Dict) (k : String) (v : Coordinate)
    (h : hasKey d k = true) : (dictInsert d k v).length = d.length := by
  rw [dictInsert, if_pos h, List.length_map]

lemma dictGet?_append_fresh (d : Dict) (k : String) (v : Coordinate)
    (h : hasKey d k = false) : dictGet? (d ++ [(k, v)]) k = some v := by
  induction d with
  | nil => simp [dictGet?]
  | cons p d ih =>
    simp only [hasKey, List.any_cons, Bool.or_eq_false_iff] at h
    simp only [List.cons_append, dictGet?, List.find?_cons, h.1]
    exact ih h.2

lemma dictGet?_update (d : Dict) (k : String) (v : Coordinate) :
    hasKey d k = true →
    dictGet? (d.map (fun p => if p.1 == k then (k, v) else p)) k = some v := by
  intro h
  unfold dictGet?
  rw [List.find?_map]
  have hpred : ((fun q => q.1 == k) ∘ fun p => if p.1 == k then ((k, v) : String × Coordinate) else p)
      = fun p : String × Coordinate => p.1 == k := by
    funext p
    by_cases hp : p.1 = k <;> simp [hp]
  rw [hpred]
  obtain ⟨q, hqmem, hq1⟩ : ∃ q ∈ d, (q.1 == k) = true := by
    simpa [hasKey, List.any_eq_true] using h
  obtain ⟨q', hq'⟩ : ∃ q', List.find? (fun p : String × Coordinate => p.1 == k) d = some q' := by
    have : (List.find? (fun p : String × Coordinate => p.1 == k) d).isSome := by
      rw [List.find?_isSome]
      exact ⟨q, hqmem, hq1⟩
    exact Option.isSome_iff_exists.mp this
  have hq'1 := List.find?_some hq'
  rw [hq']
  have hq'eq : q'.1 = k := by simpa using hq'1
  simp [hq'eq]

lemma dictGet?_dictInsert_self (d : Dict) (k : String) (v : Coordinate) :
    dictGet? (dictInsert d k v) k = some v := by
  cases h : hasKey d k with
  | false => rw [dictInsert_of_fresh d k v h]; exact dictGet?_append_fresh d k v h
  | true => rw [dictInsert, if_pos h]; exact dictGet?_update d k v h

lemma loop_no_write (net : Net) (n : Nat) :
    ∀ (libs : List LibRow) (i : Nat) (coords : Dict) (d : Dict),
    Event.write d ∉ (loop net n libs i coords).1 := by
  intro libs
  induction libs with
  | nil => intro i coords d; simp [loop]
  | cons lib rest ih =>
    intro i coords d
    simp only [loop]
    split
    · simp
    split
    · simp
    split
    · simp
    next result heq =>
      simp only [List.cons_append, List.mem_cons, List.mem_append]
      intro hmem
      rcases hmem with h1 | h3 | h4
      · exact Event.noConfusion h1
      · by_cases hc : i < n - 1 <;> simp [hc] at h3
      · exact ih (i + 1) _ d h4

lemma loop_append_error (net : Net) (n : Nat) :
    ∀ (xs ys : List LibRow) (i : Nat) (coords : Dict) (e : RunError),
    (loop net n xs i coords).2 = Except.error e →
    (loop net n (xs ++ ys) i coords).2 = Except.error e ∧
    (loop net n (xs ++ ys) i coords).1 = (loop net n xs i coords).1 := by
  intro xs
  induction xs with
  | nil => intro ys i coords e h; simp [loop] at h
  | cons lib rest ih =>
    intro ys i coords e h
    simp only [List.cons_append, loop] at h ⊢
    cases heq : dictGet? lib "Id" with
    | none => simp only [heq] at h ⊢; exact ⟨h, trivial⟩
    | some lib_id =>
      simp only [heq] at h ⊢
      cases heq2 : dictGet? lib "Address" with
      | none => simp only [heq2] at h ⊢; exact ⟨h, trivial⟩
      | some address =>
        simp only [heq2] at h ⊢
        cases heq3 : geocode_address net address with
        | error m => simp only [heq3] at h ⊢; exact ⟨h, trivial⟩
        | ok result =>
          simp only [heq3] at h ⊢
          obtain ⟨h1, h2⟩ := ih ys (i + 1) _ e h
          exact ⟨h1, congrArg (fun l => Event.lookup address ::
            ((if i < n - 1 then [Event.delay] else []) ++ l)) h2⟩

lemma loop_append_ok (net : Net) (n : Nat) :
    ∀ (xs ys : List LibRow) (i : Nat) (coords mid : Dict),
    (loop net n xs i coords).2 = Except.ok mid →
    (loop net n (xs ++ ys) i coords).2 = (loop net n ys (i + xs.length) mid).2 ∧
    (loop net n (xs ++ ys) i coords).1 =
      (loop net n xs i coords).1 ++ (loop net n ys (i + xs.length) mid).1 := by
  intro xs
  induction xs with
  | nil =>
    intro ys i coords mid h
    have hcm : coords = mid := by simpa [loop] using h
    subst hcm
    simp [loop]
  | cons lib rest ih =>
    intro ys i coords mid h
    simp only [List.cons_append, loop] at h ⊢
    cases heq : dictGet? lib "Id" with
    | none => simp [heq] at h
    | some lib_id =>
      simp only [heq] at h ⊢
      cases heq2 : dictGet? lib "Address" with
      | none => simp [heq2] at h
      | some address =>
        simp only [heq2] at h ⊢
        cases heq3 : geocode_address net address with
        | error m => simp [heq3] at h
        | ok result =>
          simp only [heq3] at h ⊢
          obtain ⟨h1, h2⟩ := ih ys (i + 1) _ mid h
          have hidx : i + 1 + rest.length = i + (rest.length + 1) := by omega
          rw [hidx] at h1 h2
          constructor
          · simpa using h1
          · simp only [List.length_cons]
            simp [h2, List.append_assoc]

lemma loop_success_ok (net : Net) (n : Nat) :
    ∀ (libs : List LibRow) (i : Nat) (coords : Dict),
    (∀ lib ∈ libs, (dictGet? lib "Id").isSome = true) →
    (∀ lib ∈ libs, (dictGet? lib "Address").isSome = true) →
    (∀ lib ∈ libs, ∃ o, geocode_address net (libAddress lib) = Except.ok o) →
    ∃ final, (loop net n libs i coords).2 = Except.ok final := by
  intro libs
  induction libs with
  | nil => intro i coords _ _ _; exact ⟨coords, by simp [loop]⟩
  | cons lib rest ih =>
    intro i coords hid haddr hnet
    obtain ⟨lib_id, heq⟩ := Option.isSome_iff_exists.mp (hid lib (List.mem_cons_self lib rest))
    obtain ⟨address, heq2⟩ := Option.isSome_iff_exists.mp (haddr lib (List.mem_cons_self lib rest))
    have haddr_eq : libAddress lib = address := by simp [libAddress, heq2]
    obtain ⟨o, heq3⟩ := hnet lib (List.mem_cons_self lib rest)
    rw [haddr_eq] at heq3
    simp only [loop, heq, heq2, heq3]
    exact ih (i + 1) _ (fun l hl => hid l (List.mem_cons_of_mem _ hl))
      (fun l hl => haddr l (List.mem_cons_of_mem _ hl))
      (fun l hl => hnet l (List.mem_cons_of_mem _ hl))

lemma loop_success_trace (net : Net) (n : Nat) :
    ∀ (libs : List LibRow) (i : Nat) (coords : Dict),
    i + libs.length = n →
    (∀ lib ∈ libs, (dictGet? lib "Id").isSome = true) →
    (∀ lib ∈ libs, (dictGet? lib "Address").isSome = true) →
    (∀ lib ∈ libs, ∃ o, geocode_address net (libAddress lib) = Except.ok o) →
    (loop net n libs i coords).1 =
      List.intersperse Event.delay (libs.map fun lib => Event.lookup (libAddress lib)) := by
  intro libs
  induction libs with
  | nil => intro i coords _ _ _ _; simp [loop]
  | cons lib rest ih =>
    intro i coords hn hid haddr hnet
    obtain ⟨lib_id, heq⟩ := Option.isSome_iff_exists.mp (hid lib (List.mem_cons_self lib rest))
    obtain ⟨address, heq2⟩ := Option.isSome_iff_exists.mp (haddr lib (List.mem_cons_self lib rest))
    have haddr_eq : libAddress lib = address := by simp [libAddress, heq2]
    obtain ⟨o, heq3⟩ := hnet lib (List.mem_cons_self lib rest)
    rw [haddr_eq] at heq3
    simp only [loop, heq, heq2, heq3]
    cases rest with
    | nil =>
      have hni : ¬ i < n - 1 := by
        simp only [List.length_cons, List.length_nil] at hn
        omega
      simp [hni, haddr_eq, List.intersperse, loop]
    | cons lib2 rest2 =>
      have hyes : i < n - 1 := by
        simp only [List.length_cons] at hn
        omega
      have hn' : (i + 1) + (lib2 :: rest2).length = n := by
        simp only [List.length_cons] at hn ⊢
        omega
      have hid' := fun l hl => hid l (List.mem_cons_of_mem _ hl)
      have haddr' := fun l hl => haddr l (List.mem_cons_of_mem _ hl)
      have hnet' := fun l hl => hnet l (List.mem_cons_of_mem _ hl)
      cases o with
      | some c =>
        have hrest := ih (i + 1) (dictInsert coords lib_id c) hn' hid' haddr' hnet'
        simp only [List.map_cons] at hrest ⊢
        simp [hyes, haddr_eq, hrest, List.intersperse]
      | none =>
        have hrest := ih (i + 1) coords hn' hid' haddr' hnet'
        simp only [List.map_cons] at hrest ⊢
        simp [hyes, haddr_eq, hrest, List.intersperse]

lemma loop_coords_filter (net : Net) (n : Nat) :
    ∀ (libs : List LibRow) (i : Nat) (coords : Dict),
    (∀ lib ∈ libs, (dictGet? lib "Id").isSome = true) →
    (∀ lib ∈ libs, (dictGet? lib "Address").isSome = true) →
    (∀ lib ∈ libs, ∃ o, geocode_address net (libAddress lib) = Except.ok o) →
    (∀ lib ∈ libs, hasKey coords (libId lib) = false) →
    (libs.map libId).Nodup →
    ∃ final, (loop net n libs i coords).2 = Except.ok final ∧
      final.map Prod.fst =
        coords.map Prod.fst ++ (libs.filter (fun lib => !(isMiss net lib))).map libId := by
  intro libs
  induction libs with
  | nil => intro i coords _ _ _ _ _; exact ⟨coords, by simp [loop], by simp⟩
  | cons lib rest ih =>
    intro i coords hid haddr hnet hfresh hnodup
    obtain ⟨lib_id, heq⟩ := Option.isSome_iff_exists.mp (hid lib (List.mem_cons_self lib rest))
    obtain ⟨address, heq2⟩ := Option.isSome_iff_exists.mp (haddr lib (List.mem_cons_self lib rest))
    have haddr_eq : libAddress lib = address := by simp [libAddress, heq2]
    have hlibid : libId lib = lib_id := by simp [libId, heq]
    obtain ⟨o, heq3⟩ := hnet lib (List.mem_cons_self lib rest)
    rw [haddr_eq] at heq3
    simp only [loop, heq, heq2, heq3]
    have hid' := fun l hl => hid l (List.mem_cons_of_mem _ hl)
    have haddr' := fun l hl => haddr l (List.mem_cons_of_mem _ hl)
    have hnet' := fun l hl => hnet l (List.mem_cons_of_mem _ hl)
    have hnodup' : (rest.map libId).Nodup := by
      simp only [List.map_cons, List.nodup_cons] at hnodup
      exact hnodup.2
    have hninrest : libId lib ∉ rest.map libId := by
      simp only [List.map_cons, List.nodup_cons] at hnodup
      exact hnodup.1
    cases o with
    | some c =>
      have hmiss : isMiss net lib = false := by simp [isMiss, haddr_eq, heq3]
      have hfreshhead : hasKey coords lib_id = false := by
        have := hfresh lib (List.mem_cons_self lib rest)
        rwa [hlibid] at this
      have hins : dictInsert coords lib_id c = coords ++ [(lib_id, c)] :=
        dictInsert_of_fresh _ _ _ hfreshhead
      have hfresh' : ∀ l ∈ rest, hasKey (dictInsert coords lib_id c) (libId l) = false := by
        intro l hl
        rw [hasKey_false_iff, hins, List.map_append]
        intro hmem
        rcases List.mem_append.mp hmem with hmem1 | hmem2
        · exact absurd hmem1 ((hasKey_false_iff _ _).mp (hfresh l (List.mem_cons_of_mem _ hl)))
        · have h1 : libId l = lib_id := by simpa using hmem2
          apply hninrest
          rw [hlibid, ← h1]
          exact List.mem_map.mpr ⟨l, hl, rfl⟩
      obtain ⟨final, hfin, hkeys⟩ :=
        ih (i + 1) (dictInsert coords lib_id c) hid' haddr' hnet' hfresh' hnodup'
      refine ⟨final, hfin, ?_⟩
      rw [hkeys, hins, List.map_append, List.filter_cons]
      simp only [hmiss, Bool.not_false, if_true, List.map_cons, hlibid]
      simp [List.append_assoc]
    | none =>
      have hmiss : isMiss net lib = true := by simp [isMiss, haddr_eq, heq3]
      have hfresh' := fun l hl => hfresh l (List.mem_cons_of_mem _ hl)
      obtain ⟨final, hfin, hkeys⟩ := ih (i + 1) coords hid' haddr' hnet' hfresh' hnodup'
      refine ⟨final, hfin, ?_⟩
      rw [hkeys, List.filter_cons]
      simp [hmiss]

lemma length_filter_not_add (p : LibRow → Bool) :
    ∀ (l : List LibRow),
    (l.filter (fun x => !(p x))).length + (l.filter p).length = l.length := by
  intro l
  induction l with
  | nil => simp
  | cons x xs ih =>
    cases hx : p x <;> simp [List.filter_cons, hx] <;> omega

lemma count_delay_intersperse :
    ∀ (l : List Event), (∀ e ∈ l, e ≠ Event.delay) →
    (List.intersperse Event.delay l).count Event.delay = l.length - 1 := by
  intro l
  induction l with
  | nil => simp [List.intersperse]
  | cons x xs ih =>
    intro h
    cases xs with
    | nil =>
      have hx : x ≠ Event.delay := h x (List.mem_cons_self x [])
      simp [List.intersperse, List.count_cons, hx]
    | cons y ys =>
      have hx : x ≠ Event.delay := h x (List.mem_cons_self x (y :: ys))
      have hrest := ih (fun e he => h e (List.mem_cons_of_mem _ he))
      simp only [List.length_cons] at hrest
      simp only [List.intersperse, List.count_cons, hrest]
      have hxd : (Event.delay == x) = false := by
        cases hb : (Event.delay == x)
        · rfl
        · exact absurd (beq_iff_eq.mp hb).symm hx
      simp [hxd, List.length_cons]
      exact hx

lemma dictGet?_zip_none (k : String) :
    ∀ (header : List String) (cells : List String), k ∉ header →
    dictGet? (header.zip cells) k = none := by
  intro header
  induction header with
  | nil => intro cells _; simp [dictGet?]
  | cons h hs ih =>
    intro cells hk
    cases cells with
    | nil => simp [dictGet?]
    | cons c cs =>
      have hne : (h == k) = false := by
        simp only [List.mem_cons, not_or] at hk
        simp [Ne.symm, hk.1]
      simp only [List.zip_cons_cons, dictGet?, List.find?_cons, hne]
      have := ih cs (by simp only [List.mem_cons, not_or] at hk; exact hk.2)
      simpa [dictGet?] using this

lemma dictGet?_zip_isSome (k : String) :
    ∀ (header : List String) (cells : List String), k ∈ header →
    cells.length = header.length →
    (dictGet? (header.zip cells) k).isSome = true := by
  intro header
  induction header with
  | nil => intro cells hk _; simp at hk
  | cons h hs ih =>
    intro cells hk hlen
    cases cells with
    | nil => simp at hlen
    | cons c cs =>
      by_cases hhk : h = k
      · simp [List.zip_cons_cons, dictGet?, List.find?_cons, hhk]
      · have hne : (h == k) = false := by simp [hhk]
        simp only [List.zip_cons_cons, dictGet?, List.find?_cons, hne]
        have hk' : k ∈ hs := by
          rcases List.mem_cons.mp hk with h1 | h2
          · exact absurd h1.symm hhk
          · exact h2
        have hlen' : cs.length = hs.length := by simpa using hlen
        have := ih cs hk' hlen'
        simpa [dictGet?] using this

lemma coordsAfter_stable (net : Net) (libs : List LibRow) (k : Nat)
    (hk : libs.length ≤ k) :
    coordsAfter net libs (k + 1) = coordsAfter net libs k := by
  unfold coordsAfter
  rw [List.take_of_length_le hk, List.take_of_length_le (Nat.le_succ_of_le hk)]

lemma coordsAfter_succ (net : Net) (libs : List LibRow) (k : Nat) (mid : Dict)
    (hk : k < libs.length) (h : coordsAfter net libs k = Except.ok mid) :
    coordsAfter net libs (k + 1) =
      (loop net libs.length [libs.get ⟨k, hk⟩] k mid).2 := by
  unfold coordsAfter at h ⊢
  have htake : libs.take (k + 1) = libs.take k ++ [libs.get ⟨k, hk⟩] := by
    rw [List.take_succ, List.getElem?_eq_getElem hk]
    simp
  rw [htake]
  have happ := (loop_append_ok net libs.length (libs.take k) [libs.get ⟨k, hk⟩] 0 [] mid h).1
  rw [happ]
  have hlen : (0 : Nat) + (libs.take k).length = k := by
    simp [List.length_take]
    omega
  rw [hlen]

lemma loop_single_ok (net : Net) (n i : Nat) (coords : Dict) (lib : LibRow)
    (lib_id address : String)
    (hid : dictGet? lib "Id" = some lib_id)
    (haddr : dictGet? lib "Address" = some address) :
    (∀ m, geocode_address net address = Except.error m →
      (loop net n [lib] i coords).2 = Except.error (RunError.netError m)) ∧
    (geocode_address net address = Except.ok none →
      (loop net n [lib] i coords).2 = Except.ok coords) ∧
    (∀ c, geocode_address net address = Except.ok (some c) →
      (loop net n [lib] i coords).2 = Except.ok (dictInsert coords lib_id c)) := by
  refine ⟨?_, ?_, ?_⟩
  · intro m hg; simp [loop, hid, haddr, hg]
  · intro hg; simp [loop, hid, haddr, hg]
  · intro c hg; simp [loop, hid, haddr, hg]

lemma loop_single_cases (net : Net) (n i : Nat) (coords : Dict) (lib : LibRow)
    (fin : Dict) :
    (loop net n [lib] i coords).2 = Except.ok fin →
    fin = coords ∨ ∃ lib_id c, fin = dictInsert coords lib_id c := by
  simp only [loop]
  cases heq : dictGet? lib "Id" with
  | none => intro h; simp at h
  | some lib_id =>
    cases heq2 : dictGet? lib "Address" with
    | none => intro h; simp at h
    | some address =>
      cases heq3 : geocode_address net address with
      | error m => intro h; simp [heq3] at h
      | ok result =>
        cases result with
        | none =>
          intro h
          simp only [heq3] at h
          left
          have h2 : coords = fin := by simpa [loop] using h
          exact h2.symm
        | some c =>
          intro h
          simp only [heq3] at h
          right
          refine ⟨lib_id, c, ?_⟩
          have h2 : dictInsert coords lib_id c = fin := by simpa [loop] using h
          exact h2.symm

/-- C4: for every address, when the HTTP request succeeds, `geocode_address`
returns `some` coordinate parsed from the first entry of the response array if
the array is non-empty, and returns `none` — without raising any error — if
the response array is empty. -/
theorem C4_geocode_first_or_none (net : Net) (address : String) (entries : List Entry)
    (h : net address = NetResult.ok entries) :
    (entries = [] → geocode_address net address = Except.ok none) ∧
    (∀ e tl, entries = e :: tl →
      geocode_address net address = Except.ok (some { lat := e.lat, lng := e.lon })) := by
  constructor
  · intro he
    subst he
    simp [geocode_address, h]
  · intro e tl he
    subst he
    simp [geocode_address, h]

/-- A network stub returning one fixed entry, for witnesses. -/
def oneHitNet : Net := fun _ => NetResult.ok [{ lat := 1, lon := 2 }]

/-- A network stub returning an empty result array, for witnesses. -/
def emptyNet : Net := fun _ => NetResult.ok []

theorem C4_witness :
    geocode_address oneHitNet "a" = Except.ok (some { lat := 1, lng := 2 }) ∧
    geocode_address emptyNet "a" = Except.ok none :=
  ⟨(C4_geocode_first_or_none oneHitNet "a" [{ lat := 1, lon := 2 }] rfl).2
      { lat := 1, lon := 2 } [] rfl,
   (C4_geocode_first_or_none emptyNet "a" [] rfl).1 rfl⟩

/-- C8: an input file with zero data rows runs to completion with an empty
output map, performs no lookups and no delays, and reports a zero written
count with no warning. -/
theorem C8_empty_input (net : Net) (header : List String) :
    mainRun net (FileSys.present header []) =
      ([Event.write []],
       Except.ok { coords := [], wroteCount := 0, failedCount := 0, warningPrinted := false }) ∧
    (∀ a, Event.lookup a ∉ (mainRun net (FileSys.present header [])).1) ∧
    Event.delay ∉ (mainRun net (FileSys.present header [])).1 := by
  refine ⟨rfl, ?_, ?_⟩ <;> simp [mainRun, dictReader, loop]

/-- C1: for every input file with N well-formed rows (both required columns
present and ids pairwise distinct, as the data model assumes) and a lookup
that returns a coordinate for every address, the run succeeds and the output
map has exactly N entries whose key list is exactly the list of input ids. -/
theorem C1_success_all_geocoded (net : Net) (header : List String)
    (rows : List (List String))
    (hid : ∀ lib ∈ dictReader header rows, (dictGet? lib "Id").isSome = true)
    (haddr : ∀ lib ∈ dictReader header rows, (dictGet? lib "Address").isSome = true)
    (hnodup : ((dictReader header rows).map libId).Nodup)
    (hnet : ∀ lib ∈ dictReader header rows, ∃ c,
      geocode_address net (libAddress lib) = Except.ok (some c)) :
    ∃ out, (mainRun net (FileSys.present header rows)).2 = Except.ok out ∧
      out.coords.length = rows.length ∧
      out.coords.map Prod.fst = (dictReader header rows).map libId := by
  have hnet' : ∀ lib ∈ dictReader header rows, ∃ o,
      geocode_address net (libAddress lib) = Except.ok o := by
    intro l hl
    obtain ⟨c, hc⟩ := hnet l hl
    exact ⟨some c, hc⟩
  have hfresh : ∀ lib ∈ dictReader header rows, hasKey ([] : Dict) (libId lib) = false :=
    fun _ _ => rfl
  obtain ⟨final, hfin, hkeys⟩ := loop_coords_filter net (dictReader header rows).length
    (dictReader header rows) 0 [] hid haddr hnet' hfresh hnodup
  have hnomiss : ∀ lib ∈ dictReader header rows, (!(isMiss net lib)) = true := by
    intro l hl
    obtain ⟨c, hc⟩ := hnet l hl
    simp [isMiss, hc]
  rw [List.filter_eq_self.mpr hnomiss] at hkeys
  simp only [List.map_nil, List.nil_append] at hkeys
  have hlen : final.length = rows.length := by
    have h1 := congrArg List.length hkeys
    simpa [dictReader] using h1
  refine ⟨{ coords := final,
            wroteCount := final.length,
            failedCount := (dictReader header rows).length - final.length,
            warningPrinted := (dictReader header rows).length - final.length != 0 },
          ?_, hlen, hkeys⟩
  simp only [mainRun, hfin]

theorem C1_witness :
    ∃ out, (mainRun oneHitNet
        (FileSys.present ["Id", "Address"] [["A", "x"], ["B", "y"]])).2 = Except.ok out ∧
      out.coords.length = ([["A", "x"], ["B", "y"]] : List (List String)).length ∧
      out.coords.map Prod.fst =
        (dictReader ["Id", "Address"] [["A", "x"], ["B", "y"]]).map libId :=
  C1_success_all_geocoded oneHitNet ["Id", "Address"] [["A", "x"], ["B", "y"]]
    (by decide) (by decide) (by decide)
    (by
      intro lib hl
      fin_cases hl <;> exact ⟨{ lat := 1, lng := 2 }, rfl⟩)

/-- C2 fails as stated: with rows `[A, A]` (duplicate id) and a lookup that
succeeds on every address (so S = ∅), the output map has 1 entry, not
N - |S| = 2, and the reported failure count is 1, not |S| = 0. -/
theorem C2_counterexample :
    (mainRun oneHitNet (FileSys.present ["Id", "Address"] [["A", "x"], ["A", "y"]])).2 =
      Except.ok { coords := [("A", { lat := 1, lng := 2 })],
                  wroteCount := 1, failedCount := 1, warningPrinted := true } ∧
    ((dictReader ["Id", "Address"] [["A", "x"], ["A", "y"]]).filter (isMiss oneHitNet)).length = 0 ∧
    (1 : Nat) ≠ 2 - 0 ∧ (1 : Nat) ≠ 0 := by
  refine ⟨by decide, by decide, by decide, by decide⟩

/-- C2 amended: for well-formed rows with pairwise-distinct ids, if the lookup
returns a result (possibly empty) for every row and misses exactly the rows of
S, the output map has N - |S| entries and the reported failure count is |S|. -/
theorem C2_miss_count (net : Net) (header : List String) (rows : List (List String))
    (hid : ∀ lib ∈ dictReader header rows, (dictGet? lib "Id").isSome = true)
    (haddr : ∀ lib ∈ dictReader header rows, (dictGet? lib "Address").isSome = true)
    (hnodup : ((dictReader header rows).map libId).Nodup)
    (hnetok : ∀ lib ∈ dictReader header rows, ∃ o,
      geocode_address net (libAddress lib) = Except.ok o) :
    ∃ out, (mainRun net (FileSys.present header rows)).2 = Except.ok out ∧
      out.coords.length =
        rows.length - ((dictReader header rows).filter (isMiss net)).length ∧
      out.failedCount = ((dictReader header rows).filter (isMiss net)).length := by
  have hfresh : ∀ lib ∈ dictReader header rows, hasKey ([] : Dict) (libId lib) = false :=
    fun _ _ => rfl
  obtain ⟨final, hfin, hkeys⟩ := loop_coords_filter net (dictReader header rows).length
    (dictReader header rows) 0 [] hid haddr hnetok hfresh hnodup
  have hsum := length_filter_not_add (isMiss net) (dictReader header rows)
  have hrowlen : (dictReader header rows).length = rows.length := by simp [dictReader]
  have hlenfinal : final.length =
      ((dictReader header rows).filter (fun lib => !(isMiss net lib))).length := by
    have h1 := congrArg List.length hkeys
    simpa using h1
  refine ⟨{ coords := final,
            wroteCount := final.length,
            failedCount := (dictReader header rows).length - final.length,
            warningPrinted := (dictReader header rows).length - final.length != 0 },
          ?_, ?_, ?_⟩
  · simp only [mainRun, hfin]
  · simp only [hlenfinal]
    omega
  · simp only [hlenfinal]
    omega

/-- A network stub that misses (empty result array) exactly on address `y`. -/
def missYNet : Net := fun a => if a == "y" then NetResult.ok [] else NetResult.ok [{ lat := 1, lon := 2 }]

theorem C2_witness :
    ∃ out, (mainRun missYNet
        (FileSys.present ["Id", "Address"] [["A", "x"], ["B", "y"]])).2 = Except.ok out ∧
      out.coords.length = ([["A", "x"], ["B", "y"]] : List (List String)).length -
        ((dictReader ["Id", "Address"] [["A", "x"], ["B", "y"]]).filter (isMiss missYNet)).length ∧
      out.failedCount =
        ((dictReader ["Id", "Address"] [["A", "x"], ["B", "y"]]).filter (isMiss missYNet)).length :=
  C2_miss_count missYNet ["Id", "Address"] [["A", "x"], ["B", "y"]]
    (by decide) (by decide) (by decide)
    (by
      intro lib hl
      fin_cases hl
      · exact ⟨some { lat := 1, lng := 2 }, rfl⟩
      · exact ⟨none, rfl⟩)

/-- C5: for a completing run on N ≥ 1 rows, the event trace is exactly the
lookups in input order with one delay strictly between each consecutive pair
(never before the first or after the last lookup), followed by the final
write; hence the delay runs exactly N - 1 times. -/
theorem C5_delay_between_lookups (net : Net) (header : List String)
    (rows : List (List String)) (hne : rows ≠ [])
    (hid : ∀ lib ∈ dictReader header rows, (dictGet? lib "Id").isSome = true)
    (haddr : ∀ lib ∈ dictReader header rows, (dictGet? lib "Address").isSome = true)
    (hnetok : ∀ lib ∈ dictReader header rows, ∃ o,
      geocode_address net (libAddress lib) = Except.ok o) :
    ∃ out, (mainRun net (FileSys.present header rows)).2 = Except.ok out ∧
      (mainRun net (FileSys.present header rows)).1 =
        List.intersperse Event.delay
          ((dictReader header rows).map fun lib => Event.lookup (libAddress lib)) ++
          [Event.write out.coords] ∧
      ((mainRun net (FileSys.present header rows)).1).count Event.delay = rows.length - 1 := by
  obtain ⟨final, hfin⟩ := loop_success_ok net (dictReader header rows).length
    (dictReader header rows) 0 [] hid haddr hnetok
  have htr := loop_success_trace net (dictReader header rows).length
    (dictReader header rows) 0 [] (by omega) hid haddr hnetok
  have hmain2 : (mainRun net (FileSys.present header rows)).2 =
      Except.ok { coords := final, wroteCount := final.length,
                  failedCount := (dictReader header rows).length - final.length,
                  warningPrinted := (dictReader header rows).length - final.length != 0 } := by
    simp only [mainRun, hfin]
  have hmain1 : (mainRun net (FileSys.present header rows)).1 =
      (loop net (dictReader header rows).length (dictReader header rows) 0 []).1 ++
        [Event.write final] := by
    simp only [mainRun, hfin]
  refine ⟨_, hmain2, ?_, ?_⟩
  · rw [hmain1, htr]
  · rw [hmain1, List.count_append, htr]
    have hnd : ∀ e ∈ (dictReader header rows).map fun lib => Event.lookup (libAddress lib),
        e ≠ Event.delay := by
      intro e he
      obtain ⟨l, _, rfl⟩ := List.mem_map.mp he
      simp
    rw [count_delay_intersperse _ hnd]
    simp [dictReader, List.count_singleton]

theorem C5_witness :
    ∃ out, (mainRun oneHitNet
        (FileSys.present ["Id", "Address"] [["A", "x"], ["B", "y"]])).2 = Except.ok out ∧
      (mainRun oneHitNet (FileSys.present ["Id", "Address"] [["A", "x"], ["B", "y"]])).1 =
        List.intersperse Event.delay
          ((dictReader ["Id", "Address"] [["A", "x"], ["B", "y"]]).map
            fun lib => Event.lookup (libAddress lib)) ++
          [Event.write out.coords] ∧
      ((mainRun oneHitNet
          (FileSys.present ["Id", "Address"] [["A", "x"], ["B", "y"]])).1).count Event.delay =
        ([["A", "x"], ["B", "y"]] : List (List String)).length - 1 :=
  C5_delay_between_lookups oneHitNet ["Id", "Address"] [["A", "x"], ["B", "y"]]
    (by decide) (by decide) (by decide)
    (by
      intro lib hl
      fin_cases hl <;> exact ⟨some { lat := 1, lng := 2 }, rfl⟩)

/-- C3: if a row's remote lookup raises (network failure, malformed response,
non-success status) and every earlier row completed, the run terminates with
that error propagated to the top and the output file is never written. -/
theorem C3_fatal_lookup_error (net : Net) (header : List String)
    (rows : List (List String)) (pre : List LibRow) (bad : LibRow)
    (post : List LibRow) (m : String)
    (hsplit : dictReader header rows = pre ++ bad :: post)
    (hpreId : ∀ lib ∈ pre, (dictGet? lib "Id").isSome = true)
    (hpreAddr : ∀ lib ∈ pre, (dictGet? lib "Address").isSome = true)
    (hpreNet : ∀ lib ∈ pre, ∃ o, geocode_address net (libAddress lib) = Except.ok o)
    (hbadId : (dictGet? bad "Id").isSome = true)
    (hbadAddr : (dictGet? bad "Address").isSome = true)
    (hbadNet : geocode_address net (libAddress bad) = Except.error m) :
    (mainRun net (FileSys.present header rows)).2 =
      Except.error (MainError.runError (RunError.netError m)) ∧
    ∀ d, Event.write d ∉ (mainRun net (FileSys.present header rows)).1 := by
  obtain ⟨mid, hmid⟩ := loop_success_ok net (dictReader header rows).length
    pre 0 [] hpreId hpreAddr hpreNet
  obtain ⟨lib_id, hid0⟩ := Option.isSome_iff_exists.mp hbadId
  obtain ⟨addr0, haddr0⟩ := Option.isSome_iff_exists.mp hbadAddr
  have haddr_eq : libAddress bad = addr0 := by simp [libAddress, haddr0]
  rw [haddr_eq] at hbadNet
  have hb := (loop_single_ok net (dictReader header rows).length (0 + pre.length)
    mid bad lib_id addr0 hid0 haddr0).1 m hbadNet
  have hbp := (loop_append_error net (dictReader header rows).length [bad] post
    (0 + pre.length) mid (RunError.netError m) hb).1
  have happ := (loop_append_ok net (dictReader header rows).length pre ([bad] ++ post)
    0 [] mid hmid).1
  have h1 : loop net (dictReader header rows).length (dictReader header rows) 0 [] =
      loop net (dictReader header rows).length (pre ++ ([bad] ++ post)) 0 [] := by
    have hsplit' : dictReader header rows = pre ++ ([bad] ++ post) := hsplit
    rw [← hsplit']
  have hloop : (loop net (dictReader header rows).length (dictReader header rows) 0 []).2 =
      Except.error (RunError.netError m) := by
    rw [h1, happ, hbp]
  constructor
  · simp only [mainRun, hloop]
  · intro d
    have hmain1 : (mainRun net (FileSys.present header rows)).1 =
        (loop net (dictReader header rows).length (dictReader header rows) 0 []).1 := by
      simp only [mainRun, hloop]
    rw [hmain1]
    exact loop_no_write net (dictReader header rows).length (dictReader header rows) 0 [] d

/-- A network stub whose request always raises, for witnesses. -/
def errNet : Net := fun _ => NetResult.err "boom"

theorem C3_witness :
    (mainRun errNet (FileSys.present ["Id", "Address"] [["A", "x"]])).2 =
      Except.error (MainError.runError (RunError.netError "boom")) ∧
    ∀ d, Event.write d ∉ (mainRun errNet (FileSys.present ["Id", "Address"] [["A", "x"]])).1 :=
  C3_fatal_lookup_error errNet ["Id", "Address"] [["A", "x"]]
    [] [("Id", "A"), ("Address", "x")] [] "boom"
    rfl
    (fun l hl => absurd hl (List.not_mem_nil l))
    (fun l hl => absurd hl (List.not_mem_nil l))
    (fun l hl => absurd hl (List.not_mem_nil l))
    (by decide) (by decide) rfl

/-- A network stub returning distinct coordinates for `x` and other addresses. -/
def twoHitNet : Net := fun a =>
  if a == "x" then NetResult.ok [{ lat := 1, lon := 2 }]
  else NetResult.ok [{ lat := 3, lon := 4 }]

/-- Two rows sharing the id `A`, with different addresses. -/
def dupLibs : List LibRow := [[("Id", "A"), ("Address", "x")], [("Id", "A"), ("Address", "y")]]

/-- C6 fails as stated for inputs with duplicate ids: after the second row the
entry for `A` has been updated in place (the step-1 map is not a prefix of the
step-2 map), so entries are not only ever added. -/
theorem C6_counterexample :
    coordsAfter twoHitNet dupLibs 1 = Except.ok [("A", { lat := 1, lng := 2 })] ∧
    coordsAfter twoHitNet dupLibs 2 = Except.ok [("A", { lat := 3, lng := 4 })] ∧
    ¬ ∃ t, ([("A", { lat := 3, lng := 4 })] : Dict) =
      ([("A", { lat := 1, lng := 2 })] : Dict) ++ t := by
  refine ⟨by decide, by decide, ?_⟩
  rintro ⟨t, ht⟩
  rw [List.singleton_append] at ht
  injection ht with h1 h2
  exact absurd h1 (by decide)

/-- C6 amended: the key list of the result map grows monotonically — at every
step keys are only appended, never removed, and a key's position never changes
(entries for duplicate ids are updated in place, last write wins). -/
theorem C6_keys_monotone (net : Net) (libs : List LibRow) (k : Nat) (mid fin : Dict)
    (hmid : coordsAfter net libs k = Except.ok mid)
    (hfin : coordsAfter net libs (k + 1) = Except.ok fin) :
    (∃ t, fin.map Prod.fst = mid.map Prod.fst ++ t) ∧
    (∀ id0, hasKey mid id0 = true → hasKey fin id0 = true) := by
  by_cases hk : k < libs.length
  · have hstep := coordsAfter_succ net libs k mid hk hmid
    rw [hfin] at hstep
    have hcases := loop_single_cases net libs.length k mid (libs.get ⟨k, hk⟩) fin hstep.symm
    have hkeys : ∃ t, fin.map Prod.fst = mid.map Prod.fst ++ t := by
      rcases hcases with h1 | ⟨id0, c, h2⟩
      · exact ⟨[], by rw [h1]; simp⟩
      · subst h2
        cases hhk : hasKey mid id0 with
        | true => exact ⟨[], by rw [map_fst_dictInsert_of_hasKey mid id0 c hhk]; simp⟩
        | false =>
          refine ⟨[id0], ?_⟩
          rw [dictInsert_of_fresh mid id0 c hhk, List.map_append]
          rfl
    refine ⟨hkeys, ?_⟩
    intro id0 h0
    obtain ⟨t, ht⟩ := hkeys
    rw [hasKey_iff] at h0 ⊢
    rw [ht]
    exact List.mem_append.mpr (Or.inl h0)
  · have hstable := coordsAfter_stable net libs k (Nat.le_of_not_lt hk)
    rw [hfin, hmid] at hstable
    have hfm : fin = mid := Except.ok.inj hstable
    subst hfm
    exact ⟨⟨[], by simp⟩, fun id0 h0 => h0⟩

theorem C6_witness :
    (∃ t, ([("A", { lat := 1, lng := 2 })] : Dict).map Prod.fst =
      ([] : Dict).map Prod.fst ++ t) ∧
    (∀ id0, hasKey ([] : Dict) id0 = true →
      hasKey ([("A", { lat := 1, lng := 2 })] : Dict) id0 = true) :=
  C6_keys_monotone twoHitNet dupLibs 0 [] [("A", { lat := 1, lng := 2 })]
    (by decide) (by decide)

/-- C7 fails as stated: a CSV whose header lacks the `Id` column but which has
zero data rows runs to completion successfully (the KeyError can only be
raised when a row is accessed), so the reader does not fail on it. -/
theorem C7_counterexample :
    ("Id" ∉ (["Address"] : List String)) ∧
    mainRun emptyNet (FileSys.present ["Address"] []) =
      ([Event.write []],
       Except.ok { coords := [], wroteCount := 0, failedCount := 0,
                   warningPrinted := false }) :=
  ⟨by decide, rfl⟩

/-- C7 amended: a missing input file fails with a fatal I/O error, and an
input file with at least one data row whose header lacks `Id` (resp. has `Id`
but lacks `Address`) fails with the corresponding KeyError propagated to the
top. -/
theorem C7_missing_input_or_column (net : Net) (header : List String)
    (rows : List (List String)) (hne : rows ≠ [])
    (hlen : ∀ r ∈ rows, r.length = header.length) :
    (mainRun net FileSys.missing = ([], Except.error MainError.ioError)) ∧
    ("Id" ∉ header →
      (mainRun net (FileSys.present header rows)).2 =
        Except.error (MainError.runError (RunError.keyError "Id"))) ∧
    ("Id" ∈ header → "Address" ∉ header →
      (mainRun net (FileSys.present header rows)).2 =
        Except.error (MainError.runError (RunError.keyError "Address"))) := by
  obtain ⟨r, rest, rfl⟩ := List.exists_cons_of_ne_nil hne
  refine ⟨rfl, ?_, ?_⟩
  · intro hid
    have hrow : dictGet? (header.zip r) "Id" = none := dictGet?_zip_none "Id" header r hid
    have hloop : loop net (dictReader header (r :: rest)).length
        (dictReader header (r :: rest)) 0 [] =
        ([], Except.error (RunError.keyError "Id")) := by
      simp only [dictReader, List.map_cons, loop, hrow]
    simp only [mainRun, hloop]
  · intro hid haddr
    have hsome := dictGet?_zip_isSome "Id" header r hid (hlen r (List.mem_cons_self r rest))
    obtain ⟨id0, hid0⟩ := Option.isSome_iff_exists.mp hsome
    have hrow : dictGet? (header.zip r) "Address" = none :=
      dictGet?_zip_none "Address" header r haddr
    have hloop : loop net (dictReader header (r :: rest)).length
        (dictReader header (r :: rest)) 0 [] =
        ([], Except.error (RunError.keyError "Address")) := by
      simp only [dictReader, List.map_cons, loop, hid0, hrow]
    simp only [mainRun, hloop]

theorem C7_witness :
    (mainRun emptyNet FileSys.missing = ([], Except.error MainError.ioError)) ∧
    ("Id" ∉ (["Address"] : List String) →
      (mainRun emptyNet (FileSys.present ["Address"] [["1 Harvard Yard"]])).2 =
        Except.error (MainError.runError (RunError.keyError "Id"))) ∧
    ("Id" ∈ (["Address"] : List String) → "Address" ∉ (["Address"] : List String) →
      (mainRun emptyNet (FileSys.present ["Address"] [["1 Harvard Yard"]])).2 =
        Except.error (MainError.runError (RunError.keyError "Address"))) :=
  C7_missing_input_or_column emptyNet ["Address"] [["1 Harvard Yard"]]
    (by decide) (by decide)

/-- C10: a miss (lookup returning `None`) at a row leaves the whole result map
— in particular any entry previously inserted for that row's id — unchanged,
while a successful lookup for the id replaces the entry with the new
coordinate. -/
theorem C10_miss_preserves_entry (net : Net) (libs : List LibRow) (k : Nat)
    (mid : Dict) (hk : k < libs.length)
    (hmid : coordsAfter net libs k = Except.ok mid)
    (lib_id address : String)
    (hrowid : dictGet? (libs.get ⟨k, hk⟩) "Id" = some lib_id)
    (hrowaddr : dictGet? (libs.get ⟨k, hk⟩) "Address" = some address) :
    (geocode_address net address = Except.ok none →
      coordsAfter net libs (k + 1) = Except.ok mid) ∧
    (∀ c, geocode_address net address = Except.ok (some c) →
      coordsAfter net libs (k + 1) = Except.ok (dictInsert mid lib_id c) ∧
      dictGet? (dictInsert mid lib_id c) lib_id = some c) := by
  have hstep := coordsAfter_succ net libs k mid hk hmid
  have hsingle := loop_single_ok net libs.length k mid (libs.get ⟨k, hk⟩)
    lib_id address hrowid hrowaddr
  constructor
  · intro hg
    rw [hstep]
    exact hsingle.2.1 hg
  · intro c hg
    refine ⟨?_, dictGet?_dictInsert_self mid lib_id c⟩
    rw [hstep]
    exact hsingle.2.2 c hg

theorem C10_witness :
    coordsAfter missYNet dupLibs 2 = Except.ok [("A", { lat := 1, lng := 2 })] :=
  (C10_miss_preserves_entry missYNet dupLibs 1 [("A", { lat := 1, lng := 2 })]
    (by decide) (by decide) "A" "y" (by decide) (by decide)).1 rfl
